import Mathlib

/-!
Shallow embedding of the logs-distributor repository (JavaScript) in Lean 4.

The embedding covers:
- data-models.js: LogLevel, LogMessage (toJSON / fromJSON / isValid) and the
  Analyzer record with its health state machine (updateHealth, getFailureRate);
- weighted-distributor.js (WeightedDistributor): analyzer registry backed by a
  JS Map (modelled as an insertion-ordered association list), the weighted
  selector, distributePacket with its backpressure check, sendToAnalyzer and
  distribute with their health updates;
- health-checker.js (HealthChecker): the configured thresholds;
- web-server.js: the POST /logs status mapping and the POST /analyzers handler.

JS numbers that the claims touch are modelled as Nat (counters, timestamps,
HTTP status codes) or as Rat (weights and random draws, where only ordered
field arithmetic matters). Nondeterministic inputs of the code (Math.random,
Date.now, uuid, the HTTP responses) are passed in as explicit arguments.
-/

namespace LogsDistributor

/-- JS string falsiness: the empty string is falsy. Models `x || dflt` on strings. -/
def jsOrStr (o : Option String) (dflt : String) : String :=
  match o with
  | none => dflt
  | some s => if s = "" then dflt else s

/-- JS number falsiness: 0 is falsy. Models `x || dflt` on numbers (as Rat). -/
def jsOrRat (o : Option ℚ) (dflt : ℚ) : ℚ :=
  match o with
  | none => dflt
  | some w => if w = 0 then dflt else w

/-- JS number falsiness: 0 is falsy. Models `x || dflt` on numbers (as Nat). -/
def jsOrNat (o : Option Nat) (dflt : Nat) : Nat :=
  match o with
  | none => dflt
  | some n => if n = 0 then dflt else n

/-- Helper for `String.prototype.includes`: does `pat` occur as a contiguous
run somewhere in the character list? -/
def charsInclude (pat : List Char) : List Char → Bool
  | [] => pat.isEmpty
  | c :: rest => pat.isPrefixOf (c :: rest) || charsInclude pat rest

/-- JS `s.includes(pat)`. -/
def jsIncludes (s pat : String) : Bool :=
  charsInclude pat.toList s.toList

/-! ## data-models.js : LogLevel and LogMessage -/

/-- The values of the LogLevel enumeration object. -/
def LogLevel.values : List String := ["DEBUG", "INFO", "WARN", "ERROR", "FATAL"]

/-- A LogMessage instance. `metadata` is a free-form object, modelled as an
association list of string pairs. -/
structure LogMessage where
  id : String
  timestamp : String
  level : String
  source : String
  message : String
  metadata : List (String × String)
  deriving DecidableEq, Repr

/-- The wire (JSON) form of a LogMessage. Fields that the code distinguishes
between absent and present (`json.id || ...`, the constructor default for
`metadata`) are Options. -/
structure LogJson where
  id : Option String
  timestamp : Option String
  level : String
  source : String
  message : String
  metadata : Option (List (String × String))
  deriving DecidableEq, Repr

/-- The LogMessage constructor: `new LogMessage(level, source, message, metadata)`.
`freshId` and `freshTs` stand for the generated `uuid()` and `new Date().toISOString()`;
the `metadata = {}` parameter default fires when the argument is undefined. -/
def LogMessage.make (freshId freshTs level source message : String)
    (metadata : Option (List (String × String))) : LogMessage :=
  { id := freshId, timestamp := freshTs, level := level, source := source,
    message := message, metadata := metadata.getD [] }

/-- `LogMessage.toJSON()`. -/
def LogMessage.toJSON (m : LogMessage) : LogJson :=
  { id := some m.id, timestamp := some m.timestamp, level := m.level,
    source := m.source, message := m.message, metadata := some m.metadata }

/-- `LogMessage.fromJSON(json)`: constructs a fresh message then overrides id
and timestamp with the JSON values when those are truthy. -/
def LogMessage.fromJSON (freshId freshTs : String) (j : LogJson) : LogMessage :=
  let m := LogMessage.make freshId freshTs j.level j.source j.message j.metadata
  { m with id := jsOrStr j.id m.id, timestamp := jsOrStr j.timestamp m.timestamp }

/-- `LogMessage.isValid()`: truthy id, timestamp, source, message and a
recognized level. -/
def LogMessage.isValid (m : LogMessage) : Bool :=
  (m.id != "") && (m.timestamp != "") && LogLevel.values.contains m.level &&
    (m.source != "") && (m.message != "")

/-! ## data-models.js : Analyzer -/

/-- An Analyzer record. `lastSeen` is a wall-clock instant (modelled as a Nat
tick), `lastResponseTime` is in milliseconds. -/
structure Analyzer where
  id : String
  endpoint : String
  weight : ℚ
  healthy : Bool
  lastSeen : Nat
  consecutiveFailures : Nat
  consecutiveSuccesses : Nat
  totalChecks : Nat
  totalFailures : Nat
  lastResponseTime : Nat
  deriving DecidableEq, Repr

/-- The Analyzer constructor: starts healthy with all counters at zero. -/
def Analyzer.make (id endpoint : String) (weight : ℚ) (now : Nat) : Analyzer :=
  { id := id, endpoint := endpoint, weight := weight, healthy := true,
    lastSeen := now, consecutiveFailures := 0, consecutiveSuccesses := 0,
    totalChecks := 0, totalFailures := 0, lastResponseTime := 0 }

/-- `Analyzer.updateHealth(success, responseTime)`. The thresholds 3 are
hardcoded in the source; `now` stands for `new Date().toISOString()`. -/
def Analyzer.updateHealth (a : Analyzer) (success : Bool) (responseTime now : Nat) :
    Analyzer :=
  let a1 := { a with totalChecks := a.totalChecks + 1, lastResponseTime := responseTime }
  if success then
    let a2 := { a1 with consecutiveSuccesses := a1.consecutiveSuccesses + 1,
                        consecutiveFailures := 0, lastSeen := now }
    if a2.consecutiveSuccesses ≥ 3 then { a2 with healthy := true } else a2
  else
    let a2 := { a1 with totalFailures := a1.totalFailures + 1,
                        consecutiveFailures := a1.consecutiveFailures + 1,
                        consecutiveSuccesses := 0 }
    if a2.consecutiveFailures ≥ 3 then { a2 with healthy := false } else a2

/-- `Analyzer.getFailureRate()`: percentage of failed checks, 0 when no checks. -/
def Analyzer.getFailureRate (a : Analyzer) : ℚ :=
  if a.totalChecks = 0 then 0
  else ((a.totalFailures : ℚ) / (a.totalChecks : ℚ)) * 100

/-- Applies a sequence of updateHealth calls; each entry is
(success, responseTime, now). -/
def Analyzer.runUpdates (a : Analyzer) (outs : List (Bool × Nat × Nat)) : Analyzer :=
  outs.foldl (fun s o => s.updateHealth o.1 o.2.1 o.2.2) a

/-! ## health-checker.js : configured thresholds

The HealthChecker constructor reads `options.failureThreshold || 3` and
`options.successThreshold || 3`. These fields are stored on the checker but the
health transitions themselves run in `Analyzer.updateHealth`, which hardcodes 3. -/

/-- The failure/success thresholds computed by the HealthChecker constructor
from its options object. -/
def HealthChecker.mkThresholds (failureThresholdOpt successThresholdOpt : Option Nat) :
    Nat × Nat :=
  (jsOrNat failureThresholdOpt 3, jsOrNat successThresholdOpt 3)

/-! ## weighted-distributor.js : the JS Map over analyzers

`this.analyzers = new Map()` is insertion-ordered and this order is observable:
`getHealthyAnalyzers` iterates `Array.from(this.analyzers.values())`.
`Map.set` on a present key replaces the value in place (keeping the position);
on an absent key it appends. `Map.delete` removes the entry. -/

/-- JS `Map.prototype.get`. -/
def mapGet (m : List (String × Analyzer)) (k : String) : Option Analyzer :=
  (m.find? (fun p => p.1 == k)).map (fun p => p.2)

/-- JS `Map.prototype.set`: in-place replace when the key is present,
append otherwise. -/
def mapSet (m : List (String × Analyzer)) (k : String) (v : Analyzer) :
    List (String × Analyzer) :=
  if m.any (fun p => p.1 == k) then
    m.map (fun p => if p.1 == k then (k, v) else p)
  else
    m ++ [(k, v)]

/-- JS `Map.prototype.delete`. -/
def mapDelete (m : List (String × Analyzer)) (k : String) : List (String × Analyzer) :=
  m.filter (fun p => ! (p.1 == k))

/-! ## weighted-distributor.js : WeightedDistributor state -/

/-- The `this.stats` object of the WeightedDistributor. -/
structure Stats where
  packetsReceived : Nat
  packetsProcessed : Nat
  packetsDropped : Nat
  errors : Nat
  totalLatency : Nat
  avgLatency : ℚ
  deriving DecidableEq, Repr

/-- Stats at construction: every counter zero. -/
def Stats.init : Stats :=
  { packetsReceived := 0, packetsProcessed := 0, packetsDropped := 0,
    errors := 0, totalLatency := 0, avgLatency := 0 }

/-- An entry of `this.packetQueue`. -/
structure QueuedPacket where
  id : String
  messages : List String
  timestamp : Nat
  deriving DecidableEq, Repr

/-- The observable state of a WeightedDistributor. -/
structure Distributor where
  maxQueueSize : Nat
  analyzers : List (String × Analyzer)
  packetQueue : List QueuedPacket
  stats : Stats
  deriving DecidableEq, Repr

/-- The WeightedDistributor constructor: `options.maxQueueSize || 10000`,
empty registry and queue, zeroed stats. -/
def Distributor.create (maxQueueSizeOpt : Option Nat) : Distributor :=
  { maxQueueSize := jsOrNat maxQueueSizeOpt 10000, analyzers := [],
    packetQueue := [], stats := Stats.init }

/-- `addAnalyzer(analyzer)`: `this.analyzers.set(analyzer.id, analyzer)`.
(The instanceof guard is satisfied by typing.) -/
def addAnalyzer (d : Distributor) (a : Analyzer) : Distributor :=
  { d with analyzers := mapSet d.analyzers a.id a }

/-- `removeAnalyzer(analyzerId)`: deletes the entry when present. -/
def removeAnalyzer (d : Distributor) (analyzerId : String) : Distributor :=
  match mapGet d.analyzers analyzerId with
  | none => d
  | some _ => { d with analyzers := mapDelete d.analyzers analyzerId }

/-- `updateAnalyzerHealth(analyzerId, healthy, responseTime)`: mutates the
stored record through `updateHealth` when the id is present. -/
def updateAnalyzerHealth (d : Distributor) (analyzerId : String) (healthy : Bool)
    (responseTime now : Nat) : Distributor :=
  match mapGet d.analyzers analyzerId with
  | none => d
  | some _ =>
      { d with analyzers := d.analyzers.map (fun p =>
          if p.1 == analyzerId then (p.1, p.2.updateHealth healthy responseTime now) else p) }

/-- `getHealthyAnalyzers()`: the healthy records in Map iteration order. -/
def getHealthyAnalyzers (d : Distributor) : List Analyzer :=
  (d.analyzers.map (fun p => p.2)).filter (fun a => a.healthy)

/-- `getTotalWeight()`: reduce over the healthy analyzers. -/
def getTotalWeight (d : Distributor) : ℚ :=
  (getHealthyAnalyzers d).foldl (fun acc a => acc + a.weight) 0

/-- The selection loop of `selectAnalyzer`: accumulate cumulative weight and
return the first analyzer with `random <= cumulativeWeight`. -/
def cdfWalk (r : ℚ) (c : ℚ) : List Analyzer → Option Analyzer
  | [] => none
  | a :: rest =>
      if r ≤ c + a.weight then some a else cdfWalk r (c + a.weight) rest

/-- `selectAnalyzer()`. `rand` stands for the `Math.random()` draw in [0, 1);
the code scales it by the total weight. -/
def selectAnalyzer (d : Distributor) (rand : ℚ) : Option Analyzer :=
  let healthy := getHealthyAnalyzers d
  if healthy.length = 0 then none
  else if healthy.length = 1 then healthy.head?
  else
    let total := getTotalWeight d
    if total = 0 then none
    else
      match cdfWalk (rand * total) 0 healthy with
      | some a => some a
      | none => healthy.getLast?

/-! ## weighted-distributor.js : sending and distributing -/

/-- What the wire did for one outbound POST: either an HTTP response with a
status code arrived, or the connection failed / timed out. -/
inductive WireOutcome
  | reply (status : Nat)
  | failure
  deriving DecidableEq, Repr

/-- The axios client of the WeightedDistributor:
`validateStatus: (status) => status < 500`, so a reply with status below 500
resolves and anything else rejects. -/
def httpClientPost (wire : WireOutcome) : Except Unit Nat :=
  match wire with
  | .reply s => if s < 500 then .ok s else .error ()
  | .failure => .error ()

/-- `sendToAnalyzer(analyzer, message)` at the distributor level. `parseOk`
tells whether `JSON.parse(message)` succeeded. Every path that throws first
runs the catch block, which records a failed outcome for the analyzer; a 2xx
response records a success. Returns the new state and whether the send
succeeded (false means the function threw). -/
def sendToAnalyzerStep (d : Distributor) (analyzerId : String) (parseOk : Bool)
    (wire : WireOutcome) (responseTime now : Nat) : Distributor × Bool :=
  if ¬ parseOk then
    (updateAnalyzerHealth d analyzerId false responseTime now, false)
  else
    match httpClientPost wire with
    | .error _ => (updateAnalyzerHealth d analyzerId false responseTime now, false)
    | .ok s =>
        if 200 ≤ s ∧ s < 300 then
          (updateAnalyzerHealth d analyzerId true responseTime now, true)
        else
          (updateAnalyzerHealth d analyzerId false responseTime now, false)

/-- `distribute(logMessage)`: select an analyzer, send, and on any send error
bump `stats.errors` and call `updateAnalyzerHealth(analyzer.id, false)` again
(with the responseTime parameter defaulting to 0) before rethrowing. Returns
the new state and whether distribution succeeded. -/
def distribute (d : Distributor) (rand : ℚ) (parseOk : Bool) (wire : WireOutcome)
    (responseTime now : Nat) : Distributor × Bool :=
  match selectAnalyzer d rand with
  | none =>
      ({ d with stats := { d.stats with errors := d.stats.errors + 1 } }, false)
  | some a =>
      let r := sendToAnalyzerStep d a.id parseOk wire responseTime now
      if r.2 then (r.1, true)
      else
        let d2 := { r.1 with stats := { r.1.stats with errors := r.1.stats.errors + 1 } }
        (updateAnalyzerHealth d2 a.id false 0 now, false)

/-- `distributePacket(logPacket)`: bump packetsReceived, then either reject
with the queue-full error (bumping packetsDropped, queue untouched) or append
the packet. `pid` stands for the generated packet id, `now` for `Date.now()`.
The Array.isArray guard is satisfied by typing. -/
def distributePacket (d : Distributor) (logPacket : List String) (pid : String)
    (now : Nat) : Distributor × Except String Unit :=
  let d1 := { d with stats := { d.stats with packetsReceived := d.stats.packetsReceived + 1 } }
  if d1.packetQueue.length ≥ d1.maxQueueSize then
    ({ d1 with stats := { d1.stats with packetsDropped := d1.stats.packetsDropped + 1 } },
     .error "Queue full - applying backpressure")
  else
    ({ d1 with packetQueue :=
        d1.packetQueue ++ [{ id := pid, messages := logPacket, timestamp := now }] },
     .ok ())

/-! ## web-server.js : handlers -/

/-- The POST /logs catch block: an error whose message includes
the text Queue full maps to HTTP 429, other errors to 500, success to 200. -/
def postLogsStatus (r : Except String Unit) : Nat :=
  match r with
  | .ok _ => 200
  | .error e => if jsIncludes e "Queue full" then 429 else 500

/-- The POST /logs handler applied to an already-parsed, already-validated
packet: run distributePacket and map the result to an HTTP status. -/
def postLogs (d : Distributor) (messages : List String) (pid : String) (now : Nat) :
    Distributor × Nat :=
  let r := distributePacket d messages pid now
  (r.1, postLogsStatus r.2)

/-- The POST /analyzers handler: destructure `{id, endpoint, weight}`,
reject with 400 when id or endpoint is falsy (absent or empty), otherwise
construct `new Analyzer(id, endpoint, weight || 1.0)` and add it. -/
def postAnalyzers (d : Distributor) (idOpt epOpt : Option String) (wOpt : Option ℚ)
    (now : Nat) : Distributor × Nat :=
  match idOpt, epOpt with
  | some id, some ep =>
      if id = "" ∨ ep = "" then (d, 400)
      else (addAnalyzer d (Analyzer.make id ep (jsOrRat wOpt 1) now), 200)
  | some _, none => (d, 400)
  | none, _ => (d, 400)

/-! ## The selector as the specification words it (for refinement comparison)

The specification describes the selector as iterating the healthy analyzers in
lexicographic order by id and selecting the first analyzer with a strict
`r < c`. The following definitions transcribe that description so it can be
compared with `selectAnalyzer`, which is the transcription of the source. -/

/-- Lexicographic comparison of character lists by code point. -/
def charListLe : List Char → List Char → Bool
  | [], _ => true
  | _ :: _, [] => false
  | c :: cs, d :: ds =>
      if c.toNat < d.toNat then true
      else if d.toNat < c.toNat then false
      else charListLe cs ds

/-- Insertion step for sorting analyzers lexicographically by id. -/
def insertById (a : Analyzer) : List Analyzer → List Analyzer
  | [] => [a]
  | b :: rest =>
      if charListLe a.id.toList b.id.toList then a :: b :: rest
      else b :: insertById a rest

/-- Sorts analyzers lexicographically by id, as the specification demands. -/
def sortById (l : List Analyzer) : List Analyzer :=
  l.foldr insertById []

/-- The CDF walk as the specification words it: strict comparison `r < c`. -/
def cdfWalkStrict (r c : ℚ) : List Analyzer → Option Analyzer
  | [] => none
  | a :: rest =>
      if r < c + a.weight then some a else cdfWalkStrict r (c + a.weight) rest

/-- The selector as the specification describes it: iterate the healthy
analyzers sorted lexicographically by id and take the first with `r < c`
strictly. Defined only to be compared against `selectAnalyzer`. -/
def selectAnalyzerClaimed (d : Distributor) (rand : ℚ) : Option Analyzer :=
  let healthy := sortById (getHealthyAnalyzers d)
  if healthy.length = 0 then none
  else if healthy.length = 1 then healthy.head?
  else
    let total := getTotalWeight d
    if total = 0 then none
    else
      match cdfWalkStrict (rand * total) 0 healthy with
      | some a => some a
      | none => healthy.getLast?

/-- Cumulative weight of the first `n` analyzers of a list. -/
def sumTake (hs : List Analyzer) (n : Nat) : ℚ :=
  ((hs.take n).map (fun a => a.weight)).sum

/-! ## Concrete states used by counterexamples and witnesses -/

/-- A distributor holding a single freshly admitted analyzer with id a. -/
def dOneFresh : Distributor :=
  { maxQueueSize := 10000, analyzers := [("a", Analyzer.make "a" "http://a" 1 0)],
    packetQueue := [], stats := Stats.init }

/-- A distributor whose two healthy analyzers are stored in id-sorted order,
each with weight 1. -/
def dSorted : Distributor :=
  { maxQueueSize := 10000,
    analyzers := [("a1", Analyzer.make "a1" "http://1" 1 0),
                  ("a2", Analyzer.make "a2" "http://2" 1 0)],
    packetQueue := [], stats := Stats.init }

/-- A distributor whose two healthy analyzers were inserted in the reverse of
lexicographic id order. -/
def dReversed : Distributor :=
  { maxQueueSize := 10000,
    analyzers := [("b", Analyzer.make "b" "http://b" 1 0),
                  ("a", Analyzer.make "a" "http://a" 1 0)],
    packetQueue := [], stats := Stats.init }

/-- A distributor with two analyzers a and b, used for registry claims. -/
def dPair : Distributor :=
  { maxQueueSize := 10000,
    analyzers := [("a", Analyzer.make "a" "http://a" 1 0),
                  ("b", Analyzer.make "b" "http://b" 1 0)],
    packetQueue := [], stats := Stats.init }

/-- A distributor whose queue already holds maxQueueSize (= 1) packets. -/
def dFullQueue : Distributor :=
  { maxQueueSize := 1, analyzers := [],
    packetQueue := [{ id := "p0", messages := ["m"], timestamp := 0 }],
    stats := Stats.init }

/-! ## Helper lemmas about the Analyzer health state machine -/

lemma updateHealth_totalChecks (a : Analyzer) (s : Bool) (rt now : Nat) :
    (a.updateHealth s rt now).totalChecks = a.totalChecks + 1 := by
  simp only [Analyzer.updateHealth]
  split <;> split <;> rfl

lemma updateHealth_false_totalFailures (a : Analyzer) (rt now : Nat) :
    (a.updateHealth false rt now).totalFailures = a.totalFailures + 1 := by
  simp only [Analyzer.updateHealth, Bool.false_eq_true, if_false]
  split <;> rfl

lemma updateHealth_true_totalFailures (a : Analyzer) (rt now : Nat) :
    (a.updateHealth true rt now).totalFailures = a.totalFailures := by
  simp only [Analyzer.updateHealth, if_true]
  split <;> rfl

lemma updateHealth_false_consecutiveFailures (a : Analyzer) (rt now : Nat) :
    (a.updateHealth false rt now).consecutiveFailures = a.consecutiveFailures + 1 := by
  simp only [Analyzer.updateHealth, Bool.false_eq_true, if_false]
  split <;> rfl

lemma updateHealth_false_consecutiveSuccesses (a : Analyzer) (rt now : Nat) :
    (a.updateHealth false rt now).consecutiveSuccesses = 0 := by
  simp only [Analyzer.updateHealth, Bool.false_eq_true, if_false]
  split <;> rfl

lemma updateHealth_true_consecutiveSuccesses (a : Analyzer) (rt now : Nat) :
    (a.updateHealth true rt now).consecutiveSuccesses = a.consecutiveSuccesses + 1 := by
  simp only [Analyzer.updateHealth, if_true]
  split <;> rfl

lemma updateHealth_true_consecutiveFailures (a : Analyzer) (rt now : Nat) :
    (a.updateHealth true rt now).consecutiveFailures = 0 := by
  simp only [Analyzer.updateHealth, if_true]
  split <;> rfl

/-- Any invariant preserved by one updateHealth step holds after any run. -/
lemma runUpdates_invariant {P : Analyzer → Prop}
    (hstep : ∀ (a : Analyzer) (s : Bool) (rt now : Nat), P a → P (a.updateHealth s rt now)) :
    ∀ (outs : List (Bool × Nat × Nat)) (a : Analyzer), P a → P (a.runUpdates outs) := by
  intro outs
  induction outs with
  | nil => intro a ha; exact ha
  | cons o rest ih =>
      intro a ha
      exact ih (a.updateHealth o.1 o.2.1 o.2.2) (hstep a o.1 o.2.1 o.2.2 ha)

/-- Mid-level invariant of the health state machine: a healthy analyzer has at
most 2 consecutive failures, an unhealthy one at most 2 consecutive successes.
One updateHealth step establishes it from any state. -/
def Analyzer.healthInv (a : Analyzer) : Prop :=
  (a.healthy = true → a.consecutiveFailures ≤ 2) ∧
  (a.healthy = false → a.consecutiveSuccesses ≤ 2)

lemma updateHealth_healthInv (a : Analyzer) (s : Bool) (rt now : Nat) :
    (a.updateHealth s rt now).healthInv := by
  cases s
  · simp only [Analyzer.updateHealth, Bool.false_eq_true, if_false]
    split
    · exact ⟨fun h => by simp_all, fun _ => by simp⟩
    · rename_i hlt
      exact ⟨fun _ => by simp; omega, fun _ => by simp⟩
  · simp only [Analyzer.updateHealth, if_true]
    split
    · exact ⟨fun _ => by simp, fun h => by simp_all⟩
    · rename_i hlt
      exact ⟨fun _ => by simp, fun _ => by simp; omega⟩

lemma make_healthInv (id ep : String) (w : ℚ) (now : Nat) :
    (Analyzer.make id ep w now).healthInv := by
  constructor <;> intro h <;> simp [Analyzer.make]

lemma runUpdates_healthInv (id ep : String) (w : ℚ) (now : Nat)
    (outs : List (Bool × Nat × Nat)) :
    ((Analyzer.make id ep w now).runUpdates outs).healthInv :=
  runUpdates_invariant (fun a s rt n _ => updateHealth_healthInv a s rt n) outs
    (Analyzer.make id ep w now) (make_healthInv id ep w now)

/-- From a state satisfying healthInv, a health flip pins the counter to
exactly 3, the threshold hardcoded in updateHealth. -/
lemma flip_forces_three (a : Analyzer) (hinv : a.healthInv) (s : Bool) (rt now : Nat) :
    (a.healthy = true → (a.updateHealth s rt now).healthy = false →
      (a.updateHealth s rt now).consecutiveFailures = 3) ∧
    (a.healthy = false → (a.updateHealth s rt now).healthy = true →
      (a.updateHealth s rt now).consecutiveSuccesses = 3) := by
  obtain ⟨h1, h2⟩ := hinv
  cases s
  · simp only [Analyzer.updateHealth, Bool.false_eq_true, if_false]
    split
    · rename_i hge
      refine ⟨fun hh _ => ?_, fun hh hflip => ?_⟩
      · have := h1 hh
        simp
        omega
      · simp_all
    · rename_i hlt
      refine ⟨fun hh hflip => ?_, fun hh hflip => ?_⟩ <;> simp_all
  · simp only [Analyzer.updateHealth, if_true]
    split
    · rename_i hge
      refine ⟨fun hh hflip => ?_, fun hh _ => ?_⟩
      · simp_all
      · have := h2 hh
        simp
        omega
    · rename_i hlt
      refine ⟨fun hh hflip => ?_, fun hh hflip => ?_⟩ <;> simp_all

/-! ## Helper lemmas about the JS Map model -/

lemma mapGet_cons (p : String × Analyzer) (l : List (String × Analyzer)) (q : String) :
    mapGet (p :: l) q = if p.1 == q then some p.2 else mapGet l q := by
  simp only [mapGet, List.find?_cons]
  cases h : (p.1 == q) <;> simp [h]

lemma mapGet_nil (q : String) : mapGet [] q = none := rfl

lemma mapGet_mapDelete (m : List (String × Analyzer)) (k q : String) :
    mapGet (mapDelete m k) q = if q = k then none else mapGet m q := by
  induction m with
  | nil => simp [mapGet_nil, mapDelete]
  | cons p rest ih =>
      by_cases hpk : p.1 = k
      · have hb : (p.1 == k) = true := by simpa using hpk
        have hdrop : mapDelete (p :: rest) k = mapDelete rest k := by
          simp [mapDelete, List.filter_cons, hb]
        rw [hdrop, ih, mapGet_cons]
        by_cases hq : q = k
        · simp [hq]
        · have hpq : (p.1 == q) = false := by
            simp [hpk]
            intro h
            exact hq h.symm
          simp [hq, hpq]
      · have hb : (p.1 == k) = false := by simpa using hpk
        have hkeep : mapDelete (p :: rest) k = p :: mapDelete rest k := by
          simp [mapDelete, List.filter_cons, hb]
        rw [hkeep, mapGet_cons, mapGet_cons]
        by_cases hpq : p.1 = q
        · have hk : ¬ (q = k) := fun h => hpk (hpq.trans h)
          have hbq : (p.1 == q) = true := by simpa using hpq
          simp [hbq, hk]
        · have hbq : (p.1 == q) = false := by simpa using hpq
          rw [hbq, ih]
          simp

lemma mapGet_updateEntry (m : List (String × Analyzer)) (k : String)
    (f : Analyzer → Analyzer) (q : String) :
    mapGet (m.map (fun p => if p.1 == k then (p.1, f p.2) else p)) q =
      if q = k then (mapGet m q).map f else mapGet m q := by
  induction m with
  | nil => simp [mapGet]
  | cons p rest ih =>
      simp only [List.map_cons]
      by_cases hpk : p.1 = k
      · have hb : (p.1 == k) = true := by simpa using hpk
        simp only [hb, if_true]
        rw [mapGet_cons, mapGet_cons]
        simp only
        by_cases hpq : p.1 = q
        · have hk : q = k := hpq.symm.trans hpk
          have hbq : (p.1 == q) = true := by simpa using hpq
          simp [hbq, hk, hpk, ih]
        · have hq : ¬ (q = k) := fun h => hpq (hpk.trans h.symm)
          have hbq : (p.1 == q) = false := by simpa using hpq
          rw [hbq]
          simp only [Bool.false_eq_true, if_false, ih, hq]
      · have hb : (p.1 == k) = false := by simpa using hpk
        simp only [hb, Bool.false_eq_true, if_false]
        rw [mapGet_cons, mapGet_cons]
        by_cases hpq : p.1 = q
        · have hk : ¬ (q = k) := fun h => hpk (hpq.trans h)
          have hbq : (p.1 == q) = true := by simpa using hpq
          simp [hbq, hk]
        · have hbq : (p.1 == q) = false := by simpa using hpq
          rw [hbq]
          simp only [Bool.false_eq_true, if_false]
          exact ih

lemma mapGet_replaceList (m : List (String × Analyzer)) (k : String) (v : Analyzer)
    (q : String) :
    mapGet (m.map (fun p => if p.1 == k then (k, v) else p)) q =
      if q = k then (if m.any (fun p => p.1 == k) then some v else none)
      else mapGet m q := by
  induction m with
  | nil => simp [mapGet_nil]
  | cons p rest ih =>
      simp only [List.map_cons, List.any_cons]
      by_cases hpk : p.1 = k
      · have hb : (p.1 == k) = true := by simpa using hpk
        simp only [hb, if_true, Bool.true_or]
        rw [mapGet_cons]
        by_cases hq : q = k
        · have hbq : ((k, v).1 == q) = true := by simpa using hq.symm
          simp [hbq, hq]
        · have hbq : ((k, v).1 == q) = false := by
            simp
            intro h
            exact hq h.symm
          rw [hbq]
          simp only [Bool.false_eq_true, if_false]
          rw [ih, mapGet_cons]
          have hpq : (p.1 == q) = false := by
            simp [hpk]
            intro h
            exact hq h.symm
          simp [hq, hpq]
      · have hb : (p.1 == k) = false := by simpa using hpk
        simp only [hb, Bool.false_eq_true, if_false, Bool.false_or]
        rw [mapGet_cons, mapGet_cons]
        by_cases hpq : p.1 = q
        · have hk : ¬ (q = k) := fun h => hpk (hpq.trans h)
          have hbq : (p.1 == q) = true := by simpa using hpq
          simp [hbq, hk]
        · have hbq : (p.1 == q) = false := by simpa using hpq
          rw [hbq]
          simp only [Bool.false_eq_true, if_false]
          exact ih

lemma mapGet_append_single (m : List (String × Analyzer)) (k : String) (v : Analyzer)
    (q : String) (hnone : mapGet m k = none) :
    mapGet (m ++ [(k, v)]) q = if q = k then some v else mapGet m q := by
  induction m with
  | nil =>
      simp only [List.nil_append, mapGet_nil]
      rw [mapGet_cons]
      by_cases hq : q = k
      · have hbq : ((k, v).1 == q) = true := by simpa using hq.symm
        simp [hbq, hq]
      · have hbq : ((k, v).1 == q) = false := by
          simp
          intro h
          exact hq h.symm
        simp [hbq, hq, mapGet_nil]
  | cons p rest ih =>
      rw [mapGet_cons] at hnone
      by_cases hpk : p.1 = k
      · have hb : (p.1 == k) = true := by simpa using hpk
        rw [hb] at hnone
        simp at hnone
      · have hb : (p.1 == k) = false := by simpa using hpk
        rw [hb] at hnone
        simp only [Bool.false_eq_true, if_false] at hnone
        simp only [List.cons_append]
        rw [mapGet_cons, mapGet_cons, ih hnone]
        by_cases hpq : p.1 = q
        · have hk : ¬ (q = k) := fun h => hpk (hpq.trans h)
          have hbq : (p.1 == q) = true := by simpa using hpq
          simp [hbq, hk]
        · have hbq : (p.1 == q) = false := by simpa using hpq
          rw [hbq]
          simp

lemma any_eq_false_mapGet_none (m : List (String × Analyzer)) (k : String)
    (h : m.any (fun p => p.1 == k) = false) : mapGet m k = none := by
  simp only [List.any_eq_false] at h
  have hf : m.find? (fun p => p.1 == k) = none := by
    rw [List.find?_eq_none]
    intro p hp
    exact h p hp
  simp [mapGet, hf]

lemma mapGet_mapSet (m : List (String × Analyzer)) (k : String) (v : Analyzer)
    (q : String) :
    mapGet (mapSet m k v) q = if q = k then some v else mapGet m q := by
  cases hany : m.any (fun p => p.1 == k)
  · simp only [mapSet, hany, Bool.false_eq_true, if_false]
    exact mapGet_append_single m k v q (any_eq_false_mapGet_none m k hany)
  · simp only [mapSet, hany, if_true]
    rw [mapGet_replaceList]
    simp [hany]

/-- Reading back through updateAnalyzerHealth: the targeted record (when
present) is updated through updateHealth, every other record is untouched. -/
lemma mapGet_updateAnalyzerHealth (d : Distributor) (analyzerId : String) (h : Bool)
    (rt now : Nat) (q : String) :
    mapGet (updateAnalyzerHealth d analyzerId h rt now).analyzers q =
      if q = analyzerId then
        (mapGet d.analyzers q).map (fun a => a.updateHealth h rt now)
      else mapGet d.analyzers q := by
  unfold updateAnalyzerHealth
  cases hg : mapGet d.analyzers analyzerId with
  | none =>
      by_cases hq : q = analyzerId
      · subst hq
        simp [hg]
      · simp [hq]
  | some a =>
      exact mapGet_updateEntry d.analyzers analyzerId (fun a => a.updateHealth h rt now) q

lemma updateAnalyzerHealth_analyzers_stats (d : Distributor) (analyzerId : String)
    (h : Bool) (rt now : Nat) :
    (updateAnalyzerHealth d analyzerId h rt now).stats = d.stats := by
  unfold updateAnalyzerHealth
  cases mapGet d.analyzers analyzerId <;> rfl

/-! ## Claim C3 : health transitions and the configured thresholds -/

/-- The statement of claim C3 for threshold values ft and st: along any run of
recorded outcomes from a freshly admitted record, healthy flips true to false
only at an outcome where consecutiveFailures reaches ft, and false to true only
where consecutiveSuccesses reaches st. -/
def healthTransitionsAtThresholds (ft st : Nat) : Prop :=
  ∀ (id ep : String) (w : ℚ) (now : Nat) (outs : List (Bool × Nat × Nat))
    (o : Bool × Nat × Nat),
    (((Analyzer.make id ep w now).runUpdates outs).healthy = true →
      (((Analyzer.make id ep w now).runUpdates outs).updateHealth o.1 o.2.1 o.2.2).healthy
        = false →
      (((Analyzer.make id ep w now).runUpdates outs).updateHealth o.1 o.2.1 o.2.2).consecutiveFailures
        = ft) ∧
    (((Analyzer.make id ep w now).runUpdates outs).healthy = false →
      (((Analyzer.make id ep w now).runUpdates outs).updateHealth o.1 o.2.1 o.2.2).healthy
        = true →
      (((Analyzer.make id ep w now).runUpdates outs).updateHealth o.1 o.2.1 o.2.2).consecutiveSuccesses
        = st)

/-- C3 counterexample: the HealthChecker constructor accepts failureThreshold
and successThreshold 5 as a configuration, but the claimed transition property
fails for those thresholds, because updateHealth hardcodes 3: a fresh analyzer
flips to unhealthy at the third consecutive failure, not the fifth. -/
theorem health_threshold_config_cex :
    HealthChecker.mkThresholds (some 5) (some 5) = (5, 5) ∧
    ¬ healthTransitionsAtThresholds 5 5 := by
  constructor
  · rfl
  · intro h
    have h1 := (h "a" "e" 1 0 [(false, 0, 0), (false, 0, 0)] (false, 0, 0)).1
    have h2 := h1 (by decide) (by decide)
    exact absurd h2 (by decide)

/-- C3 amended: the thresholds at which the healthy flag flips are the values
3 hardcoded in updateHealth, regardless of any configured thresholds: along
any run from a fresh record, healthy flips true to false only at an outcome
where consecutiveFailures reaches exactly 3, and false to true only where
consecutiveSuccesses reaches exactly 3. -/
theorem health_transitions_at_hardcoded_three : healthTransitionsAtThresholds 3 3 := by
  intro id ep w now outs o
  exact flip_forces_three ((Analyzer.make id ep w now).runUpdates outs)
    (runUpdates_healthInv id ep w now outs) o.1 o.2.1 o.2.2

/-- C3 witness: a concrete run in which the flip happens, with the hypotheses
discharged: two failures leave the analyzer healthy, the third flips it and the
theorem pins consecutiveFailures at the flip to 3. -/
theorem health_transitions_at_hardcoded_three_witness :
    ((Analyzer.make "a" "e" 1 0).runUpdates [(false, 0, 0), (false, 0, 0)]).healthy = true ∧
    (((Analyzer.make "a" "e" 1 0).runUpdates
        [(false, 0, 0), (false, 0, 0)]).updateHealth false 0 0).healthy = false ∧
    (((Analyzer.make "a" "e" 1 0).runUpdates
        [(false, 0, 0), (false, 0, 0)]).updateHealth false 0 0).consecutiveFailures = 3 :=
  ⟨by decide, by decide,
    (health_transitions_at_hardcoded_three "a" "e" 1 0 [(false, 0, 0), (false, 0, 0)]
      (false, 0, 0)).1 (by decide) (by decide)⟩

/-! ## Claim C6 : the consecutive counters are mutually exclusive -/

/-- C6: after any finite sequence of updateHealth calls from a freshly
admitted record, at least one of consecutiveSuccesses and consecutiveFailures
is 0. -/
theorem consecutive_counters_mutually_exclusive (id ep : String) (w : ℚ) (now : Nat)
    (outs : List (Bool × Nat × Nat)) :
    ((Analyzer.make id ep w now).runUpdates outs).consecutiveSuccesses = 0 ∨
    ((Analyzer.make id ep w now).runUpdates outs).consecutiveFailures = 0 := by
  refine runUpdates_invariant
    (P := fun a => a.consecutiveSuccesses = 0 ∨ a.consecutiveFailures = 0)
    ?_ outs (Analyzer.make id ep w now) ?_
  · intro a s rt n _
    cases s
    · exact Or.inl (updateHealth_false_consecutiveSuccesses a rt n)
    · exact Or.inr (updateHealth_true_consecutiveFailures a rt n)
  · exact Or.inl (by simp [Analyzer.make])

/-! ## Claim C10 : getFailureRate is total and bounded -/

/-- C10: getFailureRate returns 0 when totalChecks is 0, and along any run
from a fresh record totalFailures never exceeds totalChecks and the rate lies
in [0, 100]. -/
theorem getFailureRate_in_range (id ep : String) (w : ℚ) (now : Nat)
    (outs : List (Bool × Nat × Nat)) :
    ((Analyzer.make id ep w now).runUpdates outs).totalFailures ≤
      ((Analyzer.make id ep w now).runUpdates outs).totalChecks ∧
    (((Analyzer.make id ep w now).runUpdates outs).totalChecks = 0 →
      ((Analyzer.make id ep w now).runUpdates outs).getFailureRate = 0) ∧
    0 ≤ ((Analyzer.make id ep w now).runUpdates outs).getFailureRate ∧
    ((Analyzer.make id ep w now).runUpdates outs).getFailureRate ≤ 100 := by
  have hle : ((Analyzer.make id ep w now).runUpdates outs).totalFailures ≤
      ((Analyzer.make id ep w now).runUpdates outs).totalChecks := by
    refine runUpdates_invariant (P := fun a => a.totalFailures ≤ a.totalChecks)
      ?_ outs (Analyzer.make id ep w now) (by simp [Analyzer.make])
    intro a s rt n ha
    cases s
    · rw [updateHealth_false_totalFailures, updateHealth_totalChecks]
      omega
    · rw [updateHealth_true_totalFailures, updateHealth_totalChecks]
      omega
  set b := (Analyzer.make id ep w now).runUpdates outs with hb
  refine ⟨hle, ?_, ?_, ?_⟩
  · intro h0
    simp [Analyzer.getFailureRate, h0]
  · by_cases h0 : b.totalChecks = 0
    · simp [Analyzer.getFailureRate, h0]
    · have hpos : (0 : ℚ) < (b.totalChecks : ℚ) := by
        exact_mod_cast Nat.pos_of_ne_zero h0
      simp only [Analyzer.getFailureRate, h0, if_false]
      positivity
  · by_cases h0 : b.totalChecks = 0
    · simp [Analyzer.getFailureRate, h0]
    · have hpos : (0 : ℚ) < (b.totalChecks : ℚ) := by
        exact_mod_cast Nat.pos_of_ne_zero h0
      have hratio : ((b.totalFailures : ℚ) / (b.totalChecks : ℚ)) ≤ 1 := by
        rw [div_le_one hpos]
        exact_mod_cast hle
      simp only [Analyzer.getFailureRate, h0, if_false]
      nlinarith

/-- C10 witness: the bounds evaluated through the theorem at a concrete run of
one failure and one success. -/
theorem getFailureRate_in_range_witness :
    0 ≤ ((Analyzer.make "a" "e" 1 0).runUpdates [(false, 1, 1), (true, 2, 2)]).getFailureRate ∧
    ((Analyzer.make "a" "e" 1 0).runUpdates [(false, 1, 1), (true, 2, 2)]).getFailureRate ≤ 100 :=
  ⟨(getFailureRate_in_range "a" "e" 1 0 [(false, 1, 1), (true, 2, 2)]).2.2.1,
   (getFailureRate_in_range "a" "e" 1 0 [(false, 1, 1), (true, 2, 2)]).2.2.2⟩

/-! ## Claims C1 and C5 : outcome recording on dispatch -/

/-- Every send resolves to exactly one of the two shapes: a success recording
or a failure recording on the targeted analyzer. -/
lemma sendToAnalyzerStep_cases (d : Distributor) (aId : String) (parseOk : Bool)
    (wire : WireOutcome) (rt now : Nat) :
    sendToAnalyzerStep d aId parseOk wire rt now =
        (updateAnalyzerHealth d aId true rt now, true) ∨
    sendToAnalyzerStep d aId parseOk wire rt now =
        (updateAnalyzerHealth d aId false rt now, false) := by
  unfold sendToAnalyzerStep httpClientPost
  cases parseOk
  · simp
  · cases wire with
    | failure => simp
    | reply s =>
        by_cases h5 : s < 500
        · by_cases h2 : 200 ≤ s ∧ s < 300
          · simp [h5, h2]
          · simp [h5, h2]
        · simp [h5]

/-- C1 counterexample: a 4xx analyzer response is recorded as a health
signal. Dispatching one message to a fresh analyzer that answers 404 leaves
consecutiveFailures at 2 (incremented, twice even), and a second such dispatch
flips healthy to false. -/
theorem fourxx_health_signal_cex :
    (mapGet (distribute dOneFresh 0 true (.reply 404) 5 1).1.analyzers "a").map
      (fun a => a.consecutiveFailures) = some 2 ∧
    (mapGet (distribute dOneFresh 0 true (.reply 404) 5 1).1.analyzers "a").map
      (fun a => a.consecutiveFailures) ≠ some 0 ∧
    (mapGet (distribute (distribute dOneFresh 0 true (.reply 404) 5 1).1 0 true
        (.reply 404) 5 2).1.analyzers "a").map (fun a => a.healthy) = some false := by
  refine ⟨by decide, by decide, by decide⟩

/-- C1 amended: a 4xx response is handled exactly like a connection failure or
timeout: sendToAnalyzer records a failed outcome for the analyzer, so
consecutiveFailures is incremented and the outcome is health-degrading; only
the HTTP client refrains from throwing on 4xx, the send path itself throws for
every non-2xx status. -/
theorem send4xx_treated_as_failure (d : Distributor) (analyzerId : String)
    (s rt now : Nat) (a : Analyzer) (h4 : 400 ≤ s) (h5 : s < 500)
    (hget : mapGet d.analyzers analyzerId = some a) :
    sendToAnalyzerStep d analyzerId true (.reply s) rt now =
      sendToAnalyzerStep d analyzerId true .failure rt now ∧
    (sendToAnalyzerStep d analyzerId true (.reply s) rt now).2 = false ∧
    mapGet (sendToAnalyzerStep d analyzerId true (.reply s) rt now).1.analyzers analyzerId
      = some (a.updateHealth false rt now) ∧
    (a.updateHealth false rt now).consecutiveFailures = a.consecutiveFailures + 1 := by
  have hnot2 : ¬ (200 ≤ s ∧ s < 300) := by omega
  refine ⟨?_, ?_, ?_, updateHealth_false_consecutiveFailures a rt now⟩
  · simp [sendToAnalyzerStep, httpClientPost, h5, hnot2]
  · simp [sendToAnalyzerStep, httpClientPost, h5, hnot2]
  · simp only [sendToAnalyzerStep, httpClientPost, h5, hnot2, if_true, if_false]
    simp [mapGet_updateAnalyzerHealth, hget, hnot2]

/-- C1 witness: the amended theorem applied at a fresh analyzer answering 404. -/
theorem send4xx_treated_as_failure_witness :
    (sendToAnalyzerStep dOneFresh "a" true (.reply 404) 5 1).2 = false ∧
    mapGet (sendToAnalyzerStep dOneFresh "a" true (.reply 404) 5 1).1.analyzers "a"
      = some ((Analyzer.make "a" "http://a" 1 0).updateHealth false 5 1) :=
  ⟨(send4xx_treated_as_failure dOneFresh "a" 404 5 1 (Analyzer.make "a" "http://a" 1 0)
      (by omega) (by omega) (by decide)).2.1,
   (send4xx_treated_as_failure dOneFresh "a" 404 5 1 (Analyzer.make "a" "http://a" 1 0)
      (by omega) (by omega) (by decide)).2.2.1⟩

/-- C5 counterexample: one failed dispatch of a single message to a fresh
analyzer records two outcomes, not one: totalChecks and consecutiveFailures
both land at 2 (updateAnalyzerHealth runs in the sendToAnalyzer catch and
again in the distribute catch). -/
theorem failed_send_double_count_cex :
    (mapGet (distribute dOneFresh 0 true .failure 5 1).1.analyzers "a").map
      (fun a => (a.totalChecks, a.consecutiveFailures)) = some (2, 2) ∧
    (mapGet (distribute dOneFresh 0 true .failure 5 1).1.analyzers "a").map
      (fun a => (a.totalChecks, a.consecutiveFailures)) ≠ some (1, 1) := by
  refine ⟨by decide, by decide⟩

/-- C5 amended: a successful dispatch records exactly one outcome for the
selected analyzer (totalChecks +1, totalFailures unchanged); a failed dispatch
records the failure twice (totalChecks, consecutiveFailures and totalFailures
each +2), because both the sendToAnalyzer catch and the distribute catch call
updateAnalyzerHealth. -/
theorem distribute_outcome_counts (d : Distributor) (rand : ℚ) (parseOk : Bool)
    (wire : WireOutcome) (rt now : Nat) (a : Analyzer)
    (hsel : selectAnalyzer d rand = some a)
    (hget : mapGet d.analyzers a.id = some a) :
    ((distribute d rand parseOk wire rt now).2 = true ∧
      mapGet (distribute d rand parseOk wire rt now).1.analyzers a.id =
        some (a.updateHealth true rt now) ∧
      (a.updateHealth true rt now).totalChecks = a.totalChecks + 1 ∧
      (a.updateHealth true rt now).totalFailures = a.totalFailures) ∨
    ((distribute d rand parseOk wire rt now).2 = false ∧
      mapGet (distribute d rand parseOk wire rt now).1.analyzers a.id =
        some ((a.updateHealth false rt now).updateHealth false 0 now) ∧
      ((a.updateHealth false rt now).updateHealth false 0 now).totalChecks =
        a.totalChecks + 2 ∧
      ((a.updateHealth false rt now).updateHealth false 0 now).consecutiveFailures =
        a.consecutiveFailures + 2 ∧
      ((a.updateHealth false rt now).updateHealth false 0 now).totalFailures =
        a.totalFailures + 2) := by
  unfold distribute
  rw [hsel]
  rcases sendToAnalyzerStep_cases d a.id parseOk wire rt now with hcase | hcase
  · left
    simp only [hcase, if_true]
    refine ⟨by trivial, ?_, updateHealth_totalChecks a true rt now,
      updateHealth_true_totalFailures a rt now⟩
    rw [mapGet_updateAnalyzerHealth]
    simp [hget]
  · right
    simp only [hcase, Bool.false_eq_true, if_false]
    refine ⟨by trivial, ?_, ?_, ?_, ?_⟩
    · rw [mapGet_updateAnalyzerHealth]
      simp only [if_pos rfl]
      have hmid :
          mapGet (updateAnalyzerHealth d a.id false rt now).analyzers a.id =
            some (a.updateHealth false rt now) := by
        rw [mapGet_updateAnalyzerHealth]
        simp [hget]
      rw [show ({ (updateAnalyzerHealth d a.id false rt now) with
            stats := { (updateAnalyzerHealth d a.id false rt now).stats with
              errors := (updateAnalyzerHealth d a.id false rt now).stats.errors + 1 } } :
          Distributor).analyzers =
          (updateAnalyzerHealth d a.id false rt now).analyzers from rfl]
      rw [hmid]
      rfl
    · rw [updateHealth_totalChecks, updateHealth_totalChecks]
    · rw [updateHealth_false_consecutiveFailures, updateHealth_false_consecutiveFailures]
    · rw [updateHealth_false_totalFailures, updateHealth_false_totalFailures]

/-- C5 witness: the amended theorem applied at a fresh analyzer whose send
fails at the wire, landing in the double-recording branch. -/
theorem distribute_outcome_counts_witness :
    (distribute dOneFresh 0 true WireOutcome.failure 5 1).2 = false ∧
    ((distribute dOneFresh 0 true WireOutcome.failure 5 1).2 = true ∨
      mapGet (distribute dOneFresh 0 true WireOutcome.failure 5 1).1.analyzers "a" =
        some (((Analyzer.make "a" "http://a" 1 0).updateHealth false 5 1).updateHealth
          false 0 1)) := by
  have h := distribute_outcome_counts dOneFresh 0 true WireOutcome.failure 5 1
    (Analyzer.make "a" "http://a" 1 0) (by decide) (by decide)
  rcases h with ⟨ht, _⟩ | ⟨hf, hm, _⟩
  · exact absurd ht (by decide)
  · exact ⟨hf, Or.inr hm⟩

/-! ## Claim C8 : evict idempotence and admit-existing versus evict-then-admit -/

/-- C8 counterexample: admitting an id that is already present is not the same
registry state as evicting it and then admitting: Map.set replaces in place,
keeping the old iteration position, while evict-then-admit appends at the end.
The difference is observable through getHealthyAnalyzers, the list the
selector iterates. -/
theorem admit_existing_vs_evict_admit_cex :
    (addAnalyzer dPair (Analyzer.make "a" "http://a2" 2 5)).analyzers =
      [("a", Analyzer.make "a" "http://a2" 2 5), ("b", Analyzer.make "b" "http://b" 1 0)] ∧
    (addAnalyzer (removeAnalyzer dPair "a") (Analyzer.make "a" "http://a2" 2 5)).analyzers =
      [("b", Analyzer.make "b" "http://b" 1 0), ("a", Analyzer.make "a" "http://a2" 2 5)] ∧
    addAnalyzer dPair (Analyzer.make "a" "http://a2" 2 5) ≠
      addAnalyzer (removeAnalyzer dPair "a") (Analyzer.make "a" "http://a2" 2 5) ∧
    getHealthyAnalyzers (addAnalyzer dPair (Analyzer.make "a" "http://a2" 2 5)) ≠
      getHealthyAnalyzers
        (addAnalyzer (removeAnalyzer dPair "a") (Analyzer.make "a" "http://a2" 2 5)) := by
  refine ⟨by decide, by decide, by decide, by decide⟩

/-- C8 amended: evicting twice equals evicting once; admitting an
already-present id agrees with evict-then-admit on every lookup (the stored
record is identical, only the iteration position differs); the record stored
for an admitted id is the constructed one, which is healthy with all health
counters zero. -/
theorem evict_admit_algebra :
    (∀ (d : Distributor) (analyzerId : String),
      removeAnalyzer (removeAnalyzer d analyzerId) analyzerId =
        removeAnalyzer d analyzerId) ∧
    (∀ (d : Distributor) (a : Analyzer) (q : String),
      mapGet (addAnalyzer d a).analyzers q =
        mapGet (addAnalyzer (removeAnalyzer d a.id) a).analyzers q) ∧
    (∀ (d : Distributor) (id ep : String) (w : ℚ) (now : Nat),
      mapGet (addAnalyzer d (Analyzer.make id ep w now)).analyzers id =
        some (Analyzer.make id ep w now)) ∧
    (∀ (id ep : String) (w : ℚ) (now : Nat),
      (Analyzer.make id ep w now).healthy = true ∧
      (Analyzer.make id ep w now).consecutiveFailures = 0 ∧
      (Analyzer.make id ep w now).consecutiveSuccesses = 0 ∧
      (Analyzer.make id ep w now).totalChecks = 0 ∧
      (Analyzer.make id ep w now).totalFailures = 0) := by
  refine ⟨?_, ?_, ?_, ?_⟩
  · intro d k
    cases hg : mapGet d.analyzers k with
    | none =>
        have h1 : removeAnalyzer d k = d := by
          unfold removeAnalyzer
          rw [hg]
        rw [h1]
        exact h1
    | some a =>
        have h1 : removeAnalyzer d k = { d with analyzers := mapDelete d.analyzers k } := by
          unfold removeAnalyzer
          rw [hg]
        rw [h1]
        unfold removeAnalyzer
        have h2 : mapGet (mapDelete d.analyzers k) k = none := by
          rw [mapGet_mapDelete]
          simp
        simp only [h2]
  · intro d a q
    unfold addAnalyzer
    cases hg : mapGet d.analyzers a.id with
    | none =>
        have h1 : removeAnalyzer d a.id = d := by
          unfold removeAnalyzer
          rw [hg]
        rw [h1]
    | some b =>
        have h1 : removeAnalyzer d a.id =
            { d with analyzers := mapDelete d.analyzers a.id } := by
          unfold removeAnalyzer
          rw [hg]
        rw [h1]
        simp only [mapGet_mapSet, mapGet_mapDelete]
        by_cases hq : q = a.id <;> simp [hq]
  · intro d id ep w now
    unfold addAnalyzer
    rw [show (Analyzer.make id ep w now).id = id from rfl, mapGet_mapSet]
    simp
  · intro id ep w now
    refine ⟨rfl, rfl, rfl, rfl, rfl⟩

/-! ## Claim C7 : admitting with non-positive weight -/

/-- C7 counterexample: admitting an analyzer with weight -2 succeeds with
HTTP 200 and stores a record whose weight is -2, so a record with
non-positive weight is stored and no InvalidArgument failure occurs. -/
theorem negative_weight_admitted_cex :
    (postAnalyzers (Distributor.create none) (some "a") (some "http://a") (some (-2)) 0).2
      = 200 ∧
    (mapGet (postAnalyzers (Distributor.create none) (some "a") (some "http://a")
        (some (-2)) 0).1.analyzers "a").map (fun a => a.weight) = some (-2) := by
  refine ⟨by decide, by decide⟩

/-- C7 amended: the handler validates only the presence of id and endpoint;
any weight is accepted with HTTP 200 and the stored weight is `weight || 1.0`:
a supplied 0 (falsy) is coerced to the default 1, and any non-zero weight,
negative ones included, is stored unchanged. -/
theorem postAnalyzers_weight_not_validated (d : Distributor) (id ep : String)
    (wOpt : Option ℚ) (now : Nat) (hid : ¬ (id = "")) (hep : ¬ (ep = "")) :
    (postAnalyzers d (some id) (some ep) wOpt now).2 = 200 ∧
    mapGet (postAnalyzers d (some id) (some ep) wOpt now).1.analyzers id =
      some (Analyzer.make id ep (jsOrRat wOpt 1) now) ∧
    jsOrRat (some 0) 1 = 1 ∧
    (∀ w : ℚ, ¬ (w = 0) → jsOrRat (some w) 1 = w) := by
  have hcond : ¬ (id = "" ∨ ep = "") := by tauto
  unfold postAnalyzers
  simp only [hcond, if_false]
  refine ⟨by trivial, ?_, by norm_num [jsOrRat], ?_⟩
  · unfold addAnalyzer
    rw [show (Analyzer.make id ep (jsOrRat wOpt 1) now).id = id from rfl, mapGet_mapSet]
    simp
  · intro w hw
    simp [jsOrRat, hw]

/-- C7 witness: the amended theorem applied at a concrete admission with
weight -2, showing the stored record carries weight -2. -/
theorem postAnalyzers_weight_not_validated_witness :
    (postAnalyzers (Distributor.create none) (some "w") (some "http://w") (some (-2)) 0).2
      = 200 ∧
    mapGet (postAnalyzers (Distributor.create none) (some "w") (some "http://w")
        (some (-2)) 0).1.analyzers "w" =
      some (Analyzer.make "w" "http://w" (jsOrRat (some (-2)) 1) 0) :=
  ⟨(postAnalyzers_weight_not_validated (Distributor.create none) "w" "http://w"
      (some (-2)) 0 (by decide) (by decide)).1,
   (postAnalyzers_weight_not_validated (Distributor.create none) "w" "http://w"
      (some (-2)) 0 (by decide) (by decide)).2.1⟩

/-! ## Claim C2 : backpressure on a full queue -/

lemma jsIncludes_queueFull :
    jsIncludes "Queue full - applying backpressure" "Queue full" = true := by decide

/-- C2: when the packet queue already holds maxQueueSize packets, the next
POST /logs submission returns 429, packetsDropped grows by exactly one, and
the queue is left unchanged (the packet is not enqueued). -/
theorem queueFull_rejected (d : Distributor) (messages : List String) (pid : String)
    (now : Nat) (hfull : d.packetQueue.length = d.maxQueueSize) :
    (postLogs d messages pid now).2 = 429 ∧
    (postLogs d messages pid now).1.stats.packetsDropped = d.stats.packetsDropped + 1 ∧
    (postLogs d messages pid now).1.packetQueue = d.packetQueue := by
  have hge : d.maxQueueSize ≤ d.packetQueue.length := le_of_eq hfull.symm
  unfold postLogs distributePacket postLogsStatus
  simp [hge, jsIncludes_queueFull]

/-- C2 witness: the rejection evaluated through the theorem on a distributor
whose queue of capacity 1 already holds 1 packet. -/
theorem queueFull_rejected_witness :
    (postLogs dFullQueue ["m2"] "p1" 7).2 = 429 ∧
    (postLogs dFullQueue ["m2"] "p1" 7).1.stats.packetsDropped =
      dFullQueue.stats.packetsDropped + 1 ∧
    (postLogs dFullQueue ["m2"] "p1" 7).1.packetQueue = dFullQueue.packetQueue :=
  queueFull_rejected dFullQueue ["m2"] "p1" 7 (by decide)

/-! ## Claim C9 : LogMessage wire round-trip -/

/-- C9: for every valid LogMessage, parsing the serialized wire form back
yields a record equal to the original on all fields (id, timestamp, level,
source, message, metadata), whatever fresh id and timestamp the parse would
otherwise have generated. -/
theorem logMessage_roundtrip (m : LogMessage) (freshId freshTs : String)
    (hv : m.isValid = true) :
    LogMessage.fromJSON freshId freshTs (LogMessage.toJSON m) = m := by
  simp only [LogMessage.isValid, Bool.and_eq_true, bne_iff_ne, ne_eq] at hv
  obtain ⟨⟨⟨⟨hid, hts⟩, _⟩, _⟩, _⟩ := hv
  cases m with
  | mk id ts lv src msg md =>
      simp only at hid hts
      simp [LogMessage.fromJSON, LogMessage.make, LogMessage.toJSON, jsOrStr, hid, hts]

/-- C9 witness: the round-trip evaluated through the theorem at a concrete
valid message. -/
theorem logMessage_roundtrip_witness :
    LogMessage.isValid
      { id := "id1", timestamp := "2024-01-01T00:00:00Z", level := "INFO",
        source := "svc", message := "hello", metadata := [("k", "v")] } = true ∧
    LogMessage.fromJSON "fresh-id" "fresh-ts"
      (LogMessage.toJSON
        { id := "id1", timestamp := "2024-01-01T00:00:00Z", level := "INFO",
          source := "svc", message := "hello", metadata := [("k", "v")] }) =
      { id := "id1", timestamp := "2024-01-01T00:00:00Z", level := "INFO",
        source := "svc", message := "hello", metadata := [("k", "v")] } :=
  ⟨by decide,
   logMessage_roundtrip
     { id := "id1", timestamp := "2024-01-01T00:00:00Z", level := "INFO",
       source := "svc", message := "hello", metadata := [("k", "v")] }
     "fresh-id" "fresh-ts" (by decide)⟩

/-! ## Claim C4 : the weighted selector -/

lemma foldl_add_eq_sum (l : List Analyzer) (c : ℚ) :
    l.foldl (fun acc a => acc + a.weight) c = c + (l.map (fun a => a.weight)).sum := by
  induction l generalizing c with
  | nil => simp
  | cons a rest ih =>
      simp only [List.foldl_cons, List.map_cons, List.sum_cons]
      rw [ih]
      ring

lemma getTotalWeight_eq (d : Distributor) :
    getTotalWeight d = ((getHealthyAnalyzers d).map (fun a => a.weight)).sum := by
  unfold getTotalWeight
  rw [foldl_add_eq_sum]
  ring

lemma sumTake_succ_cons (a : Analyzer) (rest : List Analyzer) (n : Nat) :
    sumTake (a :: rest) (n + 1) = a.weight + sumTake rest n := by
  simp [sumTake, List.take_succ_cons]

lemma sumTake_one_cons (a : Analyzer) (rest : List Analyzer) :
    sumTake (a :: rest) 1 = a.weight := by
  simp [sumTake]

/-- Completeness of the CDF walk: when the draw lies below the total
cumulative weight, the walk stops at the first index whose cumulative weight
is at least the draw (non-strict comparison, in list order). -/
lemma cdfWalk_complete (l : List Analyzer) (r : ℚ) :
    ∀ (c : ℚ), l ≠ [] → r ≤ c + (l.map (fun a => a.weight)).sum →
    ∃ i : Nat, i < l.length ∧ cdfWalk r c l = l.get? i ∧
      r ≤ c + sumTake l (i + 1) ∧ ∀ j < i, c + sumTake l (j + 1) < r := by
  induction l with
  | nil =>
      intro c h _
      exact absurd rfl h
  | cons a rest ih =>
      intro c _ hle
      by_cases h : r ≤ c + a.weight
      · refine ⟨0, by simp, ?_, ?_, ?_⟩
        · simp [cdfWalk, h]
        · rw [sumTake_one_cons]
          exact h
        · intro j hj
          omega
      · push_neg at h
        have hrest : rest ≠ [] := by
          rintro rfl
          simp at hle
          linarith
        have hle2 : r ≤ (c + a.weight) + ((rest.map (fun a => a.weight)).sum) := by
          simp only [List.map_cons, List.sum_cons] at hle
          linarith
        obtain ⟨i, hlen, hwalk, hub, hlb⟩ := ih (c + a.weight) hrest hle2
        have hnot : ¬ (r ≤ c + a.weight) := by linarith
        refine ⟨i + 1, by simpa using hlen, ?_, ?_, ?_⟩
        · simp only [cdfWalk, hnot, if_false, List.get?_cons_succ]
          exact hwalk
        · rw [sumTake_succ_cons]
          linarith
        · intro j hj
          cases j with
          | zero =>
              rw [sumTake_one_cons]
              linarith
          | succ j2 =>
              rw [sumTake_succ_cons]
              have := hlb j2 (by omega)
              linarith

/-- C4 counterexample: the selector differs from the claimed algorithm on two
concrete registries. With two weight-1 analyzers stored in id order and a draw
of exactly the first cumulative weight, the code (non-strict compare) picks
the first analyzer while the claimed strict compare picks the second; with the
two analyzers inserted in reverse id order and a draw of 0, the code iterates
in insertion order and picks the later id while the claimed lexicographic
iteration picks the earlier one. -/
theorem selector_order_strict_cex :
    selectAnalyzer dSorted (1/2) = some (Analyzer.make "a1" "http://1" 1 0) ∧
    selectAnalyzerClaimed dSorted (1/2) = some (Analyzer.make "a2" "http://2" 1 0) ∧
    selectAnalyzer dReversed 0 = some (Analyzer.make "b" "http://b" 1 0) ∧
    selectAnalyzerClaimed dReversed 0 = some (Analyzer.make "a" "http://a" 1 0) ∧
    Analyzer.make "a1" "http://1" 1 0 ≠ Analyzer.make "a2" "http://2" 1 0 ∧
    Analyzer.make "b" "http://b" 1 0 ≠ Analyzer.make "a" "http://a" 1 0 := by
  have hsort1 : sortById (getHealthyAnalyzers dSorted) =
      [Analyzer.make "a1" "http://1" 1 0, Analyzer.make "a2" "http://2" 1 0] := by decide
  have hsort2 : sortById (getHealthyAnalyzers dReversed) =
      [Analyzer.make "a" "http://a" 1 0, Analyzer.make "b" "http://b" 1 0] := by decide
  refine ⟨?_, ?_, ?_, ?_, by decide, by decide⟩
  · norm_num [selectAnalyzer, dSorted, getHealthyAnalyzers, getTotalWeight, cdfWalk,
      Analyzer.make]
  · simp only [selectAnalyzerClaimed, hsort1]
    norm_num [dSorted, getHealthyAnalyzers, getTotalWeight, cdfWalkStrict, Analyzer.make]
  · norm_num [selectAnalyzer, dReversed, getHealthyAnalyzers, getTotalWeight, cdfWalk,
      Analyzer.make]
  · simp only [selectAnalyzerClaimed, hsort2]
    norm_num [dReversed, getHealthyAnalyzers, getTotalWeight, cdfWalkStrict, Analyzer.make]

/-- C4 amended: with exactly one healthy analyzer the selector returns it
without consulting the draw; with at least two healthy analyzers and positive
weights it walks the healthy analyzers in registry insertion order (not sorted
by id) and returns the first whose cumulative weight c satisfies r ≤ c with
NON-strict comparison, where r is the scaled draw. -/
theorem selectAnalyzer_characterization (d : Distributor) (rand : ℚ) :
    ((getHealthyAnalyzers d).length = 1 →
      selectAnalyzer d rand = (getHealthyAnalyzers d).head?) ∧
    (2 ≤ (getHealthyAnalyzers d).length → 0 ≤ rand → rand < 1 →
      (∀ a ∈ getHealthyAnalyzers d, 0 < a.weight) →
      ∃ i : Nat, i < (getHealthyAnalyzers d).length ∧
        selectAnalyzer d rand = (getHealthyAnalyzers d).get? i ∧
        rand * getTotalWeight d ≤ sumTake (getHealthyAnalyzers d) (i + 1) ∧
        ∀ j < i, sumTake (getHealthyAnalyzers d) (j + 1) < rand * getTotalWeight d) := by
  constructor
  · intro h1
    simp only [selectAnalyzer]
    rw [if_neg (by omega), if_pos h1]
  · intro h2 h0 h1r hw
    have hne : getHealthyAnalyzers d ≠ [] := by
      intro h
      rw [h] at h2
      simp at h2
    have hpos : 0 < ((getHealthyAnalyzers d).map (fun a => a.weight)).sum := by
      apply List.sum_pos
      · intro x hx
        obtain ⟨a, ha, rfl⟩ := List.mem_map.mp hx
        exact hw a ha
      · simpa using hne
    have htot : 0 < getTotalWeight d := by
      rw [getTotalWeight_eq]
      exact hpos
    have hrle : rand * getTotalWeight d ≤
        0 + ((getHealthyAnalyzers d).map (fun a => a.weight)).sum := by
      rw [zero_add, ← getTotalWeight_eq]
      nlinarith
    obtain ⟨i, hlen, hwalk, hub, hlb⟩ :=
      cdfWalk_complete (getHealthyAnalyzers d) (rand * getTotalWeight d) 0 hne hrle
    refine ⟨i, hlen, ?_, by simpa using hub, fun j hj => by simpa using hlb j hj⟩
    simp only [selectAnalyzer]
    rw [if_neg (by omega), if_neg (by omega), if_neg (ne_of_gt htot)]
    obtain ⟨x, hx⟩ : ∃ x, (getHealthyAnalyzers d).get? i = some x := by
      rw [List.get?_eq_get hlen]
      exact ⟨_, rfl⟩
    rw [hwalk, hx]

/-- C4 witness: the characterization applied at a concrete two-analyzer
registry with draw 1/2, all hypotheses discharged. -/
theorem selectAnalyzer_characterization_witness :
    ∃ i : Nat, i < (getHealthyAnalyzers dSorted).length ∧
      selectAnalyzer dSorted (1/2) = (getHealthyAnalyzers dSorted).get? i ∧
      (1/2 : ℚ) * getTotalWeight dSorted ≤ sumTake (getHealthyAnalyzers dSorted) (i + 1) ∧
      ∀ j < i, sumTake (getHealthyAnalyzers dSorted) (j + 1) <
        (1/2 : ℚ) * getTotalWeight dSorted :=
  (selectAnalyzer_characterization dSorted (1/2)).2 (by decide) (by norm_num)
    (by norm_num) (by decide)

end LogsDistributor
